import Mathlib

/-!
Shallow embedding of `scripts/disable_inactive_users.py`: the inactivity
detection and batch-deactivation pipeline (timestamp parsing, org-scoped
last-login selection, threshold classification, chunking, response-code
policy for bulk dispatch, and the dry-run / report behaviour of `main`).

Timestamps are modelled as integer second counts; a Python aware `datetime`
becomes a pair of its naive wall-clock value (seconds since
1970-01-01T00:00:00) and an optional UTC-offset in seconds.  Python compares
aware datetimes by absolute instant, i.e. wall clock minus offset.
-/

/-- A Python `datetime.datetime` value: `naive` is the wall-clock reading in
seconds since 1970-01-01T00:00:00 and `tz` its UTC offset in seconds
(`none` for a naive datetime, as produced by `fromisoformat` on a string
with no offset). -/
structure PyDatetime where
  naive : Int
  tz : Option Int
deriving Repr, DecidableEq

/-- The absolute instant an aware datetime denotes (Python compares aware
datetimes by this value). -/
def PyDatetime.instant (d : PyDatetime) : Int :=
  d.naive - d.tz.getD 0

/-- Two decimal digit characters to a number, `none` when not digits. -/
def digit2 (a b : Char) : Option Nat :=
  if a.isDigit && b.isDigit then
    some ((a.toNat - 48) * 10 + (b.toNat - 48))
  else none

/-- Four decimal digit characters to a number, `none` when not digits. -/
def digit4 (a b c d : Char) : Option Nat :=
  if a.isDigit && b.isDigit && c.isDigit && d.isDigit then
    some ((((a.toNat - 48) * 10 + (b.toNat - 48)) * 10 + (c.toNat - 48)) * 10
      + (d.toNat - 48))
  else none

/-- Proleptic-Gregorian leap-year test. -/
def isLeap (y : Nat) : Bool :=
  y % 4 == 0 && (y % 100 != 0 || y % 400 == 0)

/-- Days in a month of the proleptic Gregorian calendar. -/
def daysInMonth (y m : Nat) : Nat :=
  if m = 2 then (if isLeap y then 29 else 28)
  else if m = 4 ∨ m = 6 ∨ m = 9 ∨ m = 11 then 30
  else 31

/-- Day count of a civil date in an era-based reckoning (the standard
`days_from_civil` computation, kept in `Nat` since years here are ≥ 1). -/
def rataDie (y m d : Nat) : Nat :=
  let y2 := if m ≤ 2 then y - 1 else y
  let era := y2 / 400
  let yoe := y2 % 400
  let mp := (m + 9) % 12
  let doy := (153 * mp + 2) / 5 + d - 1
  let doe := yoe * 365 + yoe / 4 - yoe / 100 + doy
  era * 146097 + doe

/-- Days of a civil date since 1970-01-01. -/
def daysFromCivil (y m d : Nat) : Int :=
  (rataDie y m d : Int) - 719468

/-- Wall-clock seconds since the epoch of a validated date-time; `none`
when any field is out of range (Python raises `ValueError` there). -/
def buildNaive (y mo dy hh mi ss : Nat) : Option Int :=
  if 1 ≤ y ∧ y ≤ 9999 ∧ 1 ≤ mo ∧ mo ≤ 12 ∧ 1 ≤ dy ∧ dy ≤ daysInMonth y mo ∧
      hh ≤ 23 ∧ mi ≤ 59 ∧ ss ≤ 59 then
    some (daysFromCivil y mo dy * 86400 + ((hh * 3600 + mi * 60 + ss : Nat) : Int))
  else none

/-- Model of the standard library `datetime.datetime.fromisoformat`
restricted to the shapes this pipeline exercises: `YYYY-MM-DD`, and
`YYYY-MM-DD` + any one separator character + `HH:MM:SS`, optionally
followed by a `±HH:MM` UTC offset.  A `ValueError` (malformed text or an
out-of-range field) is modelled as `none`; an offset-free string yields a
naive datetime (`tz = none`). -/
def fromisoformat (s : String) : Option PyDatetime :=
  match s.toList with
  | [y1, y2, y3, y4, '-', a1, a2, '-', b1, b2] => do
    let y ← digit4 y1 y2 y3 y4
    let mo ← digit2 a1 a2
    let dy ← digit2 b1 b2
    let n ← buildNaive y mo dy 0 0 0
    pure ⟨n, none⟩
  | y1 :: y2 :: y3 :: y4 :: '-' :: a1 :: a2 :: '-' :: b1 :: b2 :: _sep ::
      h1 :: h2 :: ':' :: m1 :: m2 :: ':' :: s1 :: s2 :: rest => do
    let y ← digit4 y1 y2 y3 y4
    let mo ← digit2 a1 a2
    let dy ← digit2 b1 b2
    let hh ← digit2 h1 h2
    let mi ← digit2 m1 m2
    let ss ← digit2 s1 s2
    let n ← buildNaive y mo dy hh mi ss
    match rest with
    | [] => pure ⟨n, none⟩
    | [sgn, o1, o2, ':', o3, o4] => do
      let oh ← digit2 o1 o2
      let om ← digit2 o3 o4
      if oh ≤ 23 ∧ om ≤ 59 then
        match sgn with
        | '+' => pure ⟨n, some ((oh * 3600 + om * 60 : Nat) : Int)⟩
        | '-' => pure ⟨n, some (-((oh * 3600 + om * 60 : Nat) : Int))⟩
        | _ => none
      else none
    | _ => none
  | _ => none

/-- `parse_ts` of the script: a falsy input (`None` or the empty string)
and any string on which `fromisoformat` raises yield `None`; a parsed
naive datetime is reinterpreted as UTC via `replace(tzinfo=utc)`. -/
def parse_ts (ts : Option String) : Option PyDatetime :=
  match ts with
  | none => none
  | some s =>
    if s = "" then none
    else
      match fromisoformat s with
      | none => none
      | some d => some (if d.tz.isNone then ⟨d.naive, some 0⟩ else d)

/-- Python `str.lower` on the ASCII statuses this script compares
(character-wise lowercasing). -/
def pyLower (s : String) : String :=
  String.mk (s.toList.map Char.toLower)

/-- Python truthiness of an optional string (`None` and `""` are falsy). -/
def truthyStr : Option String → Bool
  | none => false
  | some s => s ≠ ""

/-- Python `a or b` on two optional strings: `a` when truthy, else `b`. -/
def pyOrStr (a b : Option String) : Option String :=
  if truthyStr a then a else b

/-- Python `max` over a list of aware datetimes: `none` on the empty list;
otherwise the first element that every later element fails to exceed
(Python keeps the current maximum unless a later item is strictly
greater, comparing by instant). -/
def pyMax (xs : List PyDatetime) : Option PyDatetime :=
  xs.foldl (fun acc x =>
    match acc with
    | none => some x
    | some m => if m.instant < x.instant then some x else acc) none

/-- One `orgMembers` entry of a user payload. -/
structure OrgMember where
  orgId : Option String
  lastLoginAt : Option String
deriving Repr, DecidableEq

/-- A user payload, restricted to the fields the script reads. -/
structure User where
  id : Option String
  email : Option String
  status : Option String
  orgMembers : Option (List OrgMember)
deriving Repr, DecidableEq

/-- `select_last_login` of the script: with a truthy `org_id` only entries
whose `orgId` equals it contribute; each entry's `lastLoginAt` is parsed
(unparseable values dropped); when no candidate was found and `org_id` is
falsy the scan is repeated without the org filter; the result is the
Python `max` of the candidates, or `None` when there are none. -/
def select_last_login (user : User) (org_id : Option String) : Option PyDatetime :=
  let entries := user.orgMembers.getD []
  let candidates := entries.filterMap (fun e =>
    if truthyStr org_id = true ∧ e.orgId ≠ org_id then none
    else parse_ts e.lastLoginAt)
  let cands2 :=
    if candidates.isEmpty && !truthyStr org_id then
      entries.filterMap (fun e => parse_ts e.lastLoginAt)
    else candidates
  pyMax cands2

/-- The record the script builds for an inactive user. -/
structure InactivityRecord where
  id : Option String
  email : Option String
  last_login : Option PyDatetime
deriving Repr, DecidableEq

/-- Loop body of `filter_inactive_users`: a user whose lowercased `status`
is `"disabled"` is skipped; otherwise a record is produced exactly when
the selected last login is absent or at most the threshold instant. -/
def classifyRecord (org_id : Option String) (threshold : Int) (user : User) :
    Option InactivityRecord :=
  if pyLower (user.status.getD "") = "disabled" then none
  else
    match select_last_login user org_id with
    | none => some ⟨pyOrStr user.id user.email, user.email, none⟩
    | some d =>
      if d.instant ≤ threshold then
        some ⟨pyOrStr user.id user.email, user.email, some d⟩
      else none

/-- `filter_inactive_users` of the script with the run's `now` made an
explicit instant parameter: threshold is `now − days_inactive` days, and
records whose `id` field is falsy are dropped by the final comprehension. -/
def filter_inactive_users (users : List User) (org_id : Option String)
    (days_inactive : Int) (now : Int) : List InactivityRecord :=
  let threshold := now - days_inactive * 86400
  (users.filterMap (classifyRecord org_id threshold)).filter
    (fun r => truthyStr r.id)

/-- The batch list `chunked` yields for a positive size: Python
`range(0, len(seq), s)` visits `0, s, 2s, …` (that is
`⌈len/s⌉` indices), and the slice `seq[i : i+s]` is `take s` of
`drop i`. -/
def chunkBatches {α : Type} (seq : List α) (s : Nat) : List (List α) :=
  (List.range ((seq.length + s - 1) / s)).map
    (fun k => (seq.drop (k * s)).take s)

/-- `chunked` of the script, with Python `range` semantics for the step:
step 0 raises `ValueError`; a negative step makes `range(0, len, step)`
empty, so no batch is yielded; a positive step slices as above. -/
def chunked {α : Type} (seq : List α) (size : Int) : Except String (List (List α)) :=
  if size = 0 then Except.error "ValueError: range() arg 3 must not be zero"
  else if 0 < size then Except.ok (chunkBatches seq size.toNat)
  else Except.ok []

/-- Outcome of the batch-dispatch loop: the batches for which a bulk call
was issued, the indices whose responses were logged as 207 partial
successes, and whether the loop aborted (`sys.exit(1)` in
`disable_batch`). -/
structure DispatchRun (α : Type) where
  dispatched : List α
  warnIdx : List Nat
  aborted : Bool
deriving Repr, DecidableEq

/-- The `for batch in chunked(...)` loop of `main` together with the
response-code policy of `disable_batch`: each batch is posted in order;
a response outside {200, 207} exits immediately (later batches are never
posted); 207 logs a partial-success warning and continues; 200 continues
silently.  `respond i` is the status the server returns for the `i`-th
posted batch. -/
def run_batches {α : Type} (respond : Nat → Nat) : Nat → List α → DispatchRun α
  | _, [] => ⟨[], [], false⟩
  | i, b :: rest =>
    let s := respond i
    if s = 200 ∨ s = 207 then
      let out := run_batches respond (i + 1) rest
      ⟨b :: out.dispatched,
        if s = 207 then i :: out.warnIdx else out.warnIdx,
        out.aborted⟩
    else ⟨[b], [], true⟩

/-- JSON values, as `resp.json()` can produce them. -/
inductive Json where
  | null
  | bool (b : Bool)
  | num (n : Int)
  | str (s : String)
  | arr (elems : List Json)
  | obj (fields : List (String × Json))
deriving Repr

/-- Python truthiness of a JSON value (`None`, `False`, `0`, `""`, `[]`
and `{}` are falsy). -/
def Json.truthy : Json → Bool
  | .null => false
  | .bool b => b
  | .num n => n != 0
  | .str s => !(s == "")
  | .arr xs => !xs.isEmpty
  | .obj fs => !fs.isEmpty

/-- `dict.get(k)` on a JSON object: the value of the first field named
`k`, or `null` (Python `None`) when missing.  Only called on objects. -/
def Json.get (j : Json) (k : String) : Json :=
  match j with
  | .obj fs =>
    match fs.find? (fun p => p.1 == k) with
    | some p => p.2
    | none => .null
  | _ => .null

/-- Python `a or b`: `a` when truthy, else `b`. -/
def pyOr (a b : Json) : Json :=
  if a.truthy then a else b

/-- `fetch_users` of the script, given the HTTP status and decoded JSON
body: any non-200 status exits fatally; on a dict body the user list is
`data.get("users") or data.get("data") or data` (Python truthiness),
which must be a list or the run exits fatally; a non-dict body (for
example a bare top-level JSON array) raises `AttributeError` at
`data.get`, which also aborts the run. -/
def fetch_users (status : Nat) (data : Json) : Except String (List Json) :=
  if status ≠ 200 then Except.error "Failed to fetch users"
  else
    match data with
    | Json.obj _ =>
      match pyOr (data.get "users") (pyOr (data.get "data") data) with
      | Json.arr xs => Except.ok xs
      | _ => Except.error "Unexpected users payload"
    | _ => Except.error "AttributeError"

/-- Whether an `Except` result is a success. -/
def exceptIsOk {ε α : Type} : Except ε α → Bool
  | .ok _ => true
  | .error _ => false

/-- The preview report `main` prints before any mutation: total fetched
count, inactive count, and the first at-most-5 inactive records (the
sample lines are only printed when there is at least one record, in
which case they are exactly these). -/
structure Report where
  total : Nat
  inactiveCount : Nat
  sample : List InactivityRecord
deriving Repr, DecidableEq

/-- Observable outcome of a run of `main` past fetching: the preview
report, the batches posted to the bulk endpoint, the 207-logged batch
indices, the process exit code, and whether the final completion message
was printed. -/
structure RunOutcome where
  report : Report
  dispatched : List (List InactivityRecord)
  warnIdx : List Nat
  exitCode : Nat
  completed : Bool
deriving Repr, DecidableEq

/-- The batches a finished run posted, `[]` when the run died with an
uncaught exception. -/
def runDispatched : Except String RunOutcome → List (List InactivityRecord)
  | .ok o => o.dispatched
  | .error _ => []

/-- `main` of the script after authentication and fetching, over an
already-decoded user inventory: classify, report, stop on an empty
inactive set or in dry-run mode, otherwise chunk and dispatch.  An
uncaught exception (`chunked` with step 0) is `Except.error`; a fatal
`sys.exit(1)` inside `disable_batch` is exit code 1 with no completion
message. -/
def main_model (users : List User) (org_id : Option String) (days_inactive : Int)
    (now : Int) (batch_size : Int) (dry_run : Bool) (respond : Nat → Nat) :
    Except String RunOutcome :=
  let inactive := filter_inactive_users users org_id days_inactive now
  let report : Report := ⟨users.length, inactive.length, inactive.take 5⟩
  if inactive.isEmpty then Except.ok ⟨report, [], [], 0, false⟩
  else if dry_run then Except.ok ⟨report, [], [], 0, false⟩
  else
    match chunked inactive batch_size with
    | Except.error e => Except.error e
    | Except.ok bs =>
      let run := run_batches respond 0 bs
      Except.ok ⟨report, run.dispatched, run.warnIdx,
        if run.aborted then 1 else 0, !run.aborted⟩

theorem chunkBatches_flatten_take {α : Type} (seq : List α) (s : Nat) :
    ∀ m : Nat,
      ((List.range m).map (fun k => (seq.drop (k * s)).take s)).flatten =
        seq.take (m * s) := by
  intro m
  induction m with
  | zero => simp
  | succ m ih =>
    rw [List.range_succ, List.map_append, List.flatten_append, ih]
    simp only [List.map_cons, List.map_nil, List.flatten_cons, List.flatten_nil,
      List.append_nil]
    rw [Nat.succ_mul, List.take_add]

theorem ceil_mul_ge (n s : Nat) (hs : 0 < s) :
    n ≤ ((n + s - 1) / s) * s := by
  have hdm := Nat.div_add_mod (n + s - 1) s
  have hlt := Nat.mod_lt (n + s - 1) hs
  rw [Nat.mul_comm]
  generalize (n + s - 1) % s = r at hdm hlt
  generalize s * ((n + s - 1) / s) = p at hdm ⊢
  omega

theorem chunkBatches_flatten {α : Type} (seq : List α) (s : Nat) (hs : 0 < s) :
    (chunkBatches seq s).flatten = seq := by
  unfold chunkBatches
  rw [chunkBatches_flatten_take]
  exact List.take_of_length_le (ceil_mul_ge seq.length s hs)

theorem chunk_full_le (n s k : Nat) (hs : 0 < s) (h : k + 1 < (n + s - 1) / s) :
    k * s + s ≤ n := by
  have h3 : (k + 2) * s ≤ n + s - 1 := (Nat.le_div_iff_mul_le hs).mp h
  have h4 : (k + 2) * s = k * s + 2 * s := by ring
  rw [h4] at h3
  generalize k * s = p at h3 ⊢
  omega

theorem chunkBatches_dropLast_length {α : Type} (seq : List α) (s : Nat)
    (hs : 0 < s) : ∀ b ∈ (chunkBatches seq s).dropLast, b.length = s := by
  intro b hb
  unfold chunkBatches at hb
  rcases hn : (seq.length + s - 1) / s with _ | m
  · rw [hn] at hb; simp at hb
  · rw [hn, List.range_succ, List.map_append, List.map_cons, List.map_nil,
      List.dropLast_concat] at hb
    rcases List.mem_map.mp hb with ⟨k, hk, rfl⟩
    have hkm : k < m := List.mem_range.mp hk
    have hfull : k * s + s ≤ seq.length := by
      apply chunk_full_le seq.length s k hs
      omega
    rw [List.length_take, List.length_drop]
    omega

/-- C3: for every record list and every batch size `n ≥ 1`, `chunked`
succeeds and produces exactly `⌈|records| / n⌉` batches; every batch
except possibly the last has length exactly `n`; and the batches
concatenated in order reproduce the records exactly. -/
theorem chunked_spec {α : Type} (seq : List α) (size : Int) (h : 1 ≤ size) :
    chunked seq size = Except.ok (chunkBatches seq size.toNat) ∧
    (chunkBatches seq size.toNat).length =
      (seq.length + size.toNat - 1) / size.toNat ∧
    (∀ b ∈ (chunkBatches seq size.toNat).dropLast, b.length = size.toNat) ∧
    (chunkBatches seq size.toNat).flatten = seq := by
  have hs : 0 < size.toNat := by omega
  refine ⟨?_, ?_, chunkBatches_dropLast_length seq size.toNat hs,
    chunkBatches_flatten seq size.toNat hs⟩
  · unfold chunked
    rw [if_neg (by omega), if_pos (by omega)]
  · unfold chunkBatches
    rw [List.length_map, List.length_range]

/-- Witness for `chunked_spec` at five records and batch size 2 (three
batches `[[0,1],[2,3],[4]]`). -/
theorem chunked_spec_witness :
    chunked [0, 1, 2, 3, 4] (2 : Int) = Except.ok [[0, 1], [2, 3], [4]] ∧
    (chunkBatches [0, 1, 2, 3, 4] 2).length = 3 ∧
    (chunkBatches [0, 1, 2, 3, 4] 2).flatten = [0, 1, 2, 3, 4] := by
  have h := chunked_spec [0, 1, 2, 3, 4] (2 : Int) (by norm_num)
  exact ⟨h.1.trans (by rfl), h.2.1.trans (by rfl), h.2.2.2⟩

/-- The batch indices the dispatch loop logs as 207 partial successes when
every batch from position `k` on succeeds: among `n` consecutive indices
starting at `k`, those whose response is 207. -/
def warnSpec (respond : Nat → Nat) : Nat → Nat → List Nat
  | _, 0 => []
  | k, n + 1 =>
    (if respond k = 207 then [k] else []) ++ warnSpec respond (k + 1) n

theorem warnSpec_mem (respond : Nat → Nat) :
    ∀ n k i, i ∈ warnSpec respond k n ↔ (k ≤ i ∧ i < k + n ∧ respond i = 207) := by
  intro n
  induction n with
  | zero => intro k i; simp [warnSpec]; omega
  | succ n ih =>
    intro k i
    by_cases hk : respond k = 207
    · simp only [warnSpec, if_pos hk, List.cons_append, List.nil_append,
        List.mem_cons, ih (k + 1) i]
      constructor
      · rintro (rfl | ⟨h1, h2, h3⟩)
        · exact ⟨Nat.le_refl i, by omega, hk⟩
        · exact ⟨by omega, by omega, h3⟩
      · rintro ⟨h1, h2, h3⟩
        rcases Nat.eq_or_lt_of_le h1 with rfl | h4
        · exact Or.inl rfl
        · exact Or.inr ⟨h4, by omega, h3⟩
    · simp only [warnSpec, if_neg hk, List.nil_append, ih (k + 1) i]
      constructor
      · rintro ⟨h1, h2, h3⟩; exact ⟨by omega, by omega, h3⟩
      · rintro ⟨h1, h2, h3⟩
        refine ⟨?_, by omega, h3⟩
        rcases Nat.eq_or_lt_of_le h1 with rfl | h4
        · exact absurd h3 hk
        · omega

theorem run_batches_all_ok {α : Type} (respond : Nat → Nat) :
    ∀ (bs : List α) (k : Nat),
      (∀ i, i < bs.length → respond (k + i) = 200 ∨ respond (k + i) = 207) →
      run_batches respond k bs = ⟨bs, warnSpec respond k bs.length, false⟩ := by
  intro bs
  induction bs with
  | nil => intro k _; rfl
  | cons b rest ih =>
    intro k hgood
    have h0 : respond k = 200 ∨ respond k = 207 := by
      have := hgood 0 (by simp)
      simpa using this
    have hrest : ∀ i, i < rest.length →
        respond (k + 1 + i) = 200 ∨ respond (k + 1 + i) = 207 := by
      intro i hi
      have := hgood (i + 1) (by simpa using Nat.succ_lt_succ hi)
      rw [show k + (i + 1) = k + 1 + i by omega] at this
      exact this
    show run_batches respond k (b :: rest) = _
    rw [run_batches, if_pos h0, ih (k + 1) hrest]
    simp only [List.length_cons, warnSpec]
    by_cases h207 : respond k = 207
    · simp [h207]
    · simp [h207]

theorem run_batches_abort {α : Type} (respond : Nat → Nat) :
    ∀ (bs : List α) (k j : Nat), j < bs.length →
      (∀ i, i < j → respond (k + i) = 200 ∨ respond (k + i) = 207) →
      ¬(respond (k + j) = 200 ∨ respond (k + j) = 207) →
      (run_batches respond k bs).dispatched = bs.take (j + 1) ∧
      (run_batches respond k bs).aborted = true := by
  intro bs
  induction bs with
  | nil => intro k j hj; simp at hj
  | cons b rest ih =>
    intro k j hj hgood hbad
    cases j with
    | zero =>
      have hb : ¬(respond k = 200 ∨ respond k = 207) := by simpa using hbad
      rw [run_batches, if_neg hb]
      exact ⟨rfl, rfl⟩
    | succ j =>
      have h0 : respond k = 200 ∨ respond k = 207 := by
        have := hgood 0 (Nat.succ_pos j)
        simpa using this
      have hrest := ih (k + 1) j (by simpa using Nat.lt_of_succ_lt_succ hj)
        (fun i hi => by
          have := hgood (i + 1) (Nat.succ_lt_succ hi)
          rw [show k + (i + 1) = k + 1 + i by omega] at this
          exact this)
        (by rw [show k + 1 + j = k + (j + 1) by omega]; exact hbad)
      rw [run_batches, if_pos h0]
      exact ⟨by simp [hrest.1], by simp [hrest.2]⟩

/-- C6: response-code policy of batch dispatch.  When every response is
200 or 207 the loop posts every batch in order and does not abort, and
the 207-logged indices are exactly the batches whose response was 207
(200 and 207 both continue to the next batch).  When the `j`-th response
is the first one outside {200, 207}, the loop aborts fatally having
posted only batches `0..j` — no later batch is dispatched. -/
theorem response_code_policy {α : Type} (bs : List α) (respond : Nat → Nat) :
    ((∀ i, i < bs.length → respond i = 200 ∨ respond i = 207) →
      (run_batches respond 0 bs).dispatched = bs ∧
      (run_batches respond 0 bs).aborted = false ∧
      ∀ i, i ∈ (run_batches respond 0 bs).warnIdx ↔
        (i < bs.length ∧ respond i = 207)) ∧
    (∀ j, j < bs.length →
      (∀ i, i < j → respond i = 200 ∨ respond i = 207) →
      respond j ≠ 200 → respond j ≠ 207 →
      (run_batches respond 0 bs).dispatched = bs.take (j + 1) ∧
      (run_batches respond 0 bs).aborted = true) := by
  constructor
  · intro hgood
    have h := run_batches_all_ok respond bs 0 (by simpa using hgood)
    rw [h]
    refine ⟨rfl, rfl, fun i => ?_⟩
    simp only [warnSpec_mem respond bs.length 0 i]
    omega
  · intro j hj hgood h200 h207
    exact run_batches_abort respond bs 0 j hj (by simpa using hgood)
      (by simpa using not_or.mpr ⟨h200, h207⟩)

/-- Concrete responder: batch 1 answers 207, all others 200. -/
def respGood : Nat → Nat := fun i => if i = 1 then 207 else 200

/-- Concrete responder: batch 1 answers 500, all others 200. -/
def respBad : Nat → Nat := fun i => if i = 1 then 500 else 200

/-- Witness for `response_code_policy`: with responses [200, 207, 200] all
three batches are posted, batch 1 is 207-logged; with responses
[200, 500, …] only the first two batches are posted and the run aborts. -/
theorem response_code_policy_witness :
    ((run_batches respGood 0 [10, 20, 30]).dispatched = [10, 20, 30] ∧
      (run_batches respGood 0 [10, 20, 30]).aborted = false ∧
      (1 ∈ (run_batches respGood 0 [10, 20, 30]).warnIdx ↔
        (1 < [10, 20, 30].length ∧ respGood 1 = 207))) ∧
    ((run_batches respBad 0 [10, 20, 30]).dispatched = [10, 20, 30].take 2 ∧
      (run_batches respBad 0 [10, 20, 30]).aborted = true) := by
  constructor
  · have h := (response_code_policy [10, 20, 30] respGood).1 (by decide)
    exact ⟨h.1, h.2.1, h.2.2 1⟩
  · exact (response_code_policy [10, 20, 30] respBad).2 1 (by decide) (by decide)
      (by decide) (by decide)

theorem classifyRecord_disabled (org : Option String) (th : Int) (u : User)
    (h : pyLower (u.status.getD "") = "disabled") :
    classifyRecord org th u = none := by
  unfold classifyRecord; rw [if_pos h]

theorem classifyRecord_sel_none (org : Option String) (th : Int) (u : User)
    (hs : pyLower (u.status.getD "") ≠ "disabled")
    (hsel : select_last_login u org = none) :
    classifyRecord org th u = some ⟨pyOrStr u.id u.email, u.email, none⟩ := by
  unfold classifyRecord; rw [if_neg hs, hsel]

theorem classifyRecord_sel_some (org : Option String) (th : Int) (u : User)
    (d : PyDatetime) (hs : pyLower (u.status.getD "") ≠ "disabled")
    (hsel : select_last_login u org = some d) :
    classifyRecord org th u =
      if d.instant ≤ th then some ⟨pyOrStr u.id u.email, u.email, some d⟩
      else none := by
  unfold classifyRecord; rw [if_neg hs, hsel]

theorem classifyRecord_antitone (org : Option String) (th th2 : Int)
    (hth : th ≤ th2) (u : User) (r : InactivityRecord)
    (h : classifyRecord org th u = some r) :
    classifyRecord org th2 u = some r := by
  by_cases hd : pyLower (u.status.getD "") = "disabled"
  · rw [classifyRecord_disabled org th u hd] at h
    exact Option.noConfusion h
  · cases hsel : select_last_login u org with
    | none =>
      rw [classifyRecord_sel_none org th u hd hsel] at h
      rw [classifyRecord_sel_none org th2 u hd hsel]
      exact h
    | some dd =>
      rw [classifyRecord_sel_some org th u dd hd hsel] at h
      rw [classifyRecord_sel_some org th2 u dd hd hsel]
      by_cases hle : dd.instant ≤ th
      · rw [if_pos hle] at h
        rw [if_pos (le_trans hle hth)]
        exact h
      · rw [if_neg hle] at h
        exact Option.noConfusion h

/-- C1 (amended): for fixed `now` the inactive set is antitone in
`thresholdDays` — every record produced at threshold `d` days is still
produced at any smaller `d' ≤ d` (lowering the threshold never moves an
inactive user into the active set; raising it can). -/
theorem inactive_threshold_antitone (users : List User) (org : Option String)
    (d dp now : Int) (h : dp ≤ d) (r : InactivityRecord)
    (hr : r ∈ filter_inactive_users users org d now) :
    r ∈ filter_inactive_users users org dp now := by
  simp only [filter_inactive_users] at hr ⊢
  rw [List.mem_filter] at hr ⊢
  refine ⟨?_, hr.2⟩
  rcases List.mem_filterMap.mp hr.1 with ⟨u, hu, hcl⟩
  refine List.mem_filterMap.mpr ⟨u, hu, ?_⟩
  exact classifyRecord_antitone org (now - d * 86400) (now - dp * 86400)
    (by omega) u r hcl

/-- A user whose only login is exactly at the 1-day boundary before
`now = 86400`. -/
def uMono : User :=
  { id := some "u1", email := some "u1@example.com", status := some "Active",
    orgMembers :=
      some [{ orgId := some "org1", lastLoginAt := some "1970-01-01T00:00:00" }] }

/-- Counterexample to C1 as stated: `uMono` is classified inactive at
`thresholdDays = 1` but active at the larger `thresholdDays = 2`
(raising the threshold moved an inactive user into the active set). -/
theorem inactive_threshold_monotone_cex :
    filter_inactive_users [uMono] none 1 86400 ≠ [] ∧
    filter_inactive_users [uMono] none 2 86400 = [] := by
  exact ⟨by decide, by decide⟩

/-- Witness for `inactive_threshold_antitone`: `uMono` is inactive at
2 days before `now = 259200`, hence also at 1 day. -/
theorem inactive_threshold_antitone_witness :
    (⟨some "u1", some "u1@example.com", some ⟨0, some 0⟩⟩ : InactivityRecord) ∈
      filter_inactive_users [uMono] none 1 259200 :=
  inactive_threshold_antitone [uMono] none 2 1 259200 (by norm_num)
    ⟨some "u1", some "u1@example.com", some ⟨0, some 0⟩⟩ (by decide)

/-- C4: a non-Disabled user (with a truthy identifier, so that the record
survives the final comprehension) yields an inactivity record iff the
derived last login is absent or at most `now − thresholdDays` days (the
boundary instant counts as inactive); otherwise the user is active. -/
theorem inactive_iff (u : User) (org : Option String) (days now : Int)
    (hs : pyLower (u.status.getD "") ≠ "disabled")
    (hid : truthyStr (pyOrStr u.id u.email) = true) :
    filter_inactive_users [u] org days now ≠ [] ↔
      (select_last_login u org = none ∨
        ∃ d, select_last_login u org = some d ∧
          d.instant ≤ now - days * 86400) := by
  simp only [filter_inactive_users]
  cases hsel : select_last_login u org with
  | none =>
    rw [List.filterMap_cons_some
      (classifyRecord_sel_none org (now - days * 86400) u hs hsel),
      List.filterMap_nil, List.filter_cons, List.filter_nil]
    rw [if_pos hid]
    simp
  | some dd =>
    by_cases hle : dd.instant ≤ now - days * 86400
    · rw [List.filterMap_cons_some
        ((classifyRecord_sel_some org (now - days * 86400) u dd hs hsel).trans
          (if_pos hle)),
        List.filterMap_nil, List.filter_cons, List.filter_nil]
      rw [if_pos hid]
      simp only [ne_eq, List.cons_ne_nil, not_false_eq_true, true_iff]
      exact Or.inr ⟨dd, rfl, hle⟩
    · rw [List.filterMap_cons_none
        ((classifyRecord_sel_some org (now - days * 86400) u dd hs hsel).trans
          (if_neg hle)),
        List.filterMap_nil, List.filter_nil]
      simp only [ne_eq, not_true_eq_false, false_iff]
      rintro (h | ⟨d2, hd2, hd2le⟩)
      · exact Option.noConfusion h
      · rw [Option.some_inj] at hd2
        subst hd2
        exact hle hd2le

/-- User A of the spec scenario: last login 2024-03-01, queried with
threshold 45 days at `now` = 2024-06-01T00:00Z. -/
def uScenarioA : User :=
  { id := some "userA", email := some "a@example.com", status := some "Active",
    orgMembers :=
      some [{ orgId := some "org1", lastLoginAt := some "2024-03-01T00:00:00" }] }

/-- Witness for `inactive_iff`: user A of the spec scenario is inactive at
45 days for `now` = 2024-06-01T00:00Z (instant 1717200000). -/
theorem inactive_iff_witness :
    filter_inactive_users [uScenarioA] none 45 1717200000 ≠ [] :=
  (inactive_iff uScenarioA none 45 1717200000 (by decide) (by decide)).mpr
    (Or.inr ⟨⟨1709251200, some 0⟩, by decide, by decide⟩)

/-- C5: a user whose (case-insensitive) status is Disabled contributes no
inactivity record at all — removing it from the inventory leaves the
classifier output unchanged, whatever its `lastLoginAt` data. -/
theorem disabled_excluded (l1 l2 : List User) (u : User) (org : Option String)
    (days now : Int) (h : pyLower (u.status.getD "") = "disabled") :
    filter_inactive_users (l1 ++ u :: l2) org days now =
      filter_inactive_users (l1 ++ l2) org days now := by
  simp only [filter_inactive_users, List.filterMap_append]
  rw [List.filterMap_cons_none
    (classifyRecord_disabled org (now - days * 86400) u h)]

/-- User D of the spec scenario: already Disabled, stale last login. -/
def uScenarioD : User :=
  { id := some "userD", email := some "d@example.com",
    status := some "Disabled",
    orgMembers :=
      some [{ orgId := some "org1", lastLoginAt := some "2024-03-01T00:00:00" }] }

/-- Witness for `disabled_excluded`: dropping the Disabled user D from a
one-user inventory leaves the (empty) output unchanged. -/
theorem disabled_excluded_witness :
    filter_inactive_users [uScenarioD] none 45 1717200000 =
      filter_inactive_users [] none 45 1717200000 :=
  disabled_excluded [] [] uScenarioD none 45 1717200000 (by decide)

/-- C8: when an organization filter is set (truthy) and no membership's
`orgId` equals it, `select_last_login` returns absence — whatever the
memberships' `lastLoginAt` values are, the no-filter fallback is not
applied and no error is raised — and consequently a non-Disabled such
user is classified inactive at every threshold. -/
theorem org_filter_unmatched (u : User) (o : String) (th : Int) (ho : o ≠ "")
    (hm : ∀ e ∈ u.orgMembers.getD [], e.orgId ≠ some o) :
    select_last_login u (some o) = none ∧
    (pyLower (u.status.getD "") ≠ "disabled" →
      (classifyRecord (some o) th u).isSome = true) := by
  have htruthy : truthyStr (some o) = true := by
    simpa [truthyStr] using ho
  have hcand : (u.orgMembers.getD []).filterMap (fun e =>
      if truthyStr (some o) = true ∧ e.orgId ≠ some o then none
      else parse_ts e.lastLoginAt) = [] := by
    rw [List.filterMap_eq_nil_iff]
    intro e he
    rw [if_pos ⟨htruthy, hm e he⟩]
  have hsel : select_last_login u (some o) = none := by
    simp only [select_last_login]
    rw [hcand, htruthy]
    simp [pyMax]
  refine ⟨hsel, fun hs => ?_⟩
  rw [classifyRecord_sel_none (some o) th u hs hsel]
  rfl

/-- A user whose only membership is in `orgA`, with a recent login. -/
def uOrg : User :=
  { id := some "u2", email := none, status := some "Active",
    orgMembers :=
      some [{ orgId := some "orgA", lastLoginAt := some "2024-05-20T00:00:00" }] }

/-- Witness for `org_filter_unmatched`: filtering `uOrg` by the unmatched
org `orgB` yields no last login and an inactivity record even at a
0-second threshold. -/
theorem org_filter_unmatched_witness :
    select_last_login uOrg (some "orgB") = none ∧
    (classifyRecord (some "orgB") 0 uOrg).isSome = true := by
  have h := org_filter_unmatched uOrg "orgB" 0 (by decide) (by decide)
  exact ⟨h.1, h.2 (by decide)⟩

/-- C9: `parse_ts` is total over strings — an input `fromisoformat`
rejects (`ValueError`) yields `None` rather than an error; a string
parsed with an explicit UTC offset keeps that offset; a naive string
(no offset) is reinterpreted as UTC (offset 0). -/
theorem parse_ts_total (s : String) :
    (fromisoformat s = none → parse_ts (some s) = none) ∧
    (∀ n off, fromisoformat s = some ⟨n, some off⟩ →
      parse_ts (some s) = some ⟨n, some off⟩) ∧
    (∀ n, fromisoformat s = some ⟨n, none⟩ →
      parse_ts (some s) = some ⟨n, some 0⟩) := by
  by_cases hs : s = ""
  · subst hs
    have h0 : fromisoformat "" = none := rfl
    refine ⟨fun _ => rfl, fun n off h => ?_, fun n h => ?_⟩
    · rw [h0] at h; exact Option.noConfusion h
    · rw [h0] at h; exact Option.noConfusion h
  · refine ⟨fun h => ?_, fun n off h => ?_, fun n h => ?_⟩
    · simp only [parse_ts]; rw [if_neg hs, h]
    · simp only [parse_ts]; rw [if_neg hs, h]; rfl
    · simp only [parse_ts]; rw [if_neg hs, h]; rfl

/-- Witness for `parse_ts_total`: a malformed string parses to `None`; an
offset-carrying ISO string keeps its +02:00 offset; a naive ISO string
becomes UTC. -/
theorem parse_ts_total_witness :
    parse_ts (some "not a timestamp") = none ∧
    parse_ts (some "2024-06-01T10:20:30+02:00") =
      some ⟨1717237230, some 7200⟩ ∧
    parse_ts (some "2024-06-01T10:20:30") = some ⟨1717237230, some 0⟩ := by
  refine ⟨(parse_ts_total "not a timestamp").1 rfl, ?_, ?_⟩
  · exact (parse_ts_total "2024-06-01T10:20:30+02:00").2.1 1717237230 7200 rfl
  · exact (parse_ts_total "2024-06-01T10:20:30").2.2 1717237230 rfl

/-- Counterexample to C2 as stated: a 200 payload whose `users` key holds
the empty list is NOT decoded as that (empty) list — the empty list is
falsy, so the Python `or` chain falls through to the dict itself, which
is not a list, and the run aborts fatally. -/
theorem fetch_users_empty_users_cex :
    exceptIsOk (fetch_users 200 (Json.obj [("users", Json.arr [])])) = false ∧
    fetch_users 200 (Json.obj [("users", Json.arr [])]) ≠
      Except.ok ([] : List Json) := by
  refine ⟨rfl, fun h => ?_⟩
  have h2 : exceptIsOk (fetch_users 200 (Json.obj [("users", Json.arr [])])) =
      false := rfl
  rw [h] at h2
  exact Bool.noConfusion h2

/-- C2 (amended): on a 200 object payload the fetcher selects the first
TRUTHY value among the `users` entry, the `data` entry and the payload
object itself, and succeeds iff that value is a list.  A non-empty list
under `users` is decoded as that list; an empty list under `users`
together with a falsy `data` entry aborts the run fatally (it is not
decoded as the empty list); a falsy `users` entry with a non-empty list
under `data` decodes to the latter; any non-200 status and any non-object
payload (such as a bare top-level JSON array) abort the run fatally. -/
theorem fetch_users_decode (fs : List (String × Json)) (st : Nat)
    (xs ys : List Json) :
    (st ≠ 200 → exceptIsOk (fetch_users st (Json.obj fs)) = false) ∧
    ((Json.obj fs).get "users" = Json.arr xs → xs ≠ [] →
      fetch_users 200 (Json.obj fs) = Except.ok xs) ∧
    ((Json.obj fs).get "users" = Json.arr [] →
      ((Json.obj fs).get "data").truthy = false →
      exceptIsOk (fetch_users 200 (Json.obj fs)) = false) ∧
    (((Json.obj fs).get "users").truthy = false →
      (Json.obj fs).get "data" = Json.arr ys → ys ≠ [] →
      fetch_users 200 (Json.obj fs) = Except.ok ys) ∧
    (∀ j : Json, (∀ gs, j ≠ Json.obj gs) →
      exceptIsOk (fetch_users st j) = false) := by
  refine ⟨?_, ?_, ?_, ?_, ?_⟩
  · intro hst
    unfold fetch_users
    rw [if_pos hst]
    rfl
  · intro hu hne
    have htr : (Json.arr xs).truthy = true := by
      simp [Json.truthy, List.isEmpty_eq_true, hne]
    unfold fetch_users
    rw [if_neg (by omega)]
    rw [hu]
    unfold pyOr
    rw [if_pos htr]
  · intro hu hd
    have htr : (Json.arr ([] : List Json)).truthy = false := by
      simp [Json.truthy]
    unfold fetch_users
    rw [if_neg (by omega)]
    rw [hu]
    unfold pyOr
    rw [if_neg (by rw [htr]; exact Bool.false_ne_true), if_neg (by rw [hd]; exact Bool.false_ne_true)]
    rfl
  · intro hu hd hne
    have htr : (Json.arr ys).truthy = true := by
      simp [Json.truthy, List.isEmpty_eq_true, hne]
    unfold fetch_users
    rw [if_neg (by omega)]
    rw [hd]
    unfold pyOr
    rw [if_neg (by rw [hu]; exact Bool.false_ne_true), if_pos htr]
  · intro j hj
    unfold fetch_users
    by_cases hst : st ≠ 200
    · rw [if_pos hst]; rfl
    · rw [if_neg hst]
      cases j with
      | null => rfl
      | bool b => rfl
      | num n => rfl
      | str s => rfl
      | arr elems => rfl
      | obj gs => exact absurd rfl (hj gs)

/-- Witness for `fetch_users_decode`: a non-empty `users` list decodes to
itself; status 500 aborts; empty `users` with no `data` aborts; a falsy
`users` with a non-empty `data` list decodes to the latter; a bare
top-level array payload aborts. -/
theorem fetch_users_decode_witness :
    exceptIsOk (fetch_users 500 (Json.obj [("users", Json.arr [Json.str "a"])]))
      = false ∧
    fetch_users 200 (Json.obj [("users", Json.arr [Json.str "a"])]) =
      Except.ok [Json.str "a"] ∧
    exceptIsOk (fetch_users 200 (Json.obj [("users", Json.arr [])])) = false ∧
    fetch_users 200 (Json.obj [("users", Json.null),
      ("data", Json.arr [Json.str "b"])]) = Except.ok [Json.str "b"] ∧
    exceptIsOk (fetch_users 500 (Json.arr [Json.str "a"])) = false := by
  refine ⟨?_, ?_, ?_, ?_, ?_⟩
  · exact (fetch_users_decode [("users", Json.arr [Json.str "a"])] 500 [] []).1
      (by omega)
  · exact (fetch_users_decode [("users", Json.arr [Json.str "a"])] 200
      [Json.str "a"] []).2.1 rfl (by simp)
  · exact (fetch_users_decode [("users", Json.arr [])] 200 [] []).2.2.1 rfl rfl
  · exact (fetch_users_decode [("users", Json.null),
      ("data", Json.arr [Json.str "b"])] 200 [] [Json.str "b"]).2.2.2.1 rfl rfl
      (by simp)
  · exact (fetch_users_decode [] 500 [] []).2.2.2.2 (Json.arr [Json.str "a"])
      (fun gs h => Json.noConfusion h)

theorem chunked_pos {α : Type} (seq : List α) (size : Int) (h : 1 ≤ size) :
    chunked seq size = Except.ok (chunkBatches seq size.toNat) := by
  unfold chunked
  rw [if_neg (by omega), if_pos (by omega)]

theorem main_model_run (users : List User) (org : Option String)
    (days now bsz : Int) (respond : Nat → Nat)
    (hne : ¬((filter_inactive_users users org days now).isEmpty = true))
    (hb : 1 ≤ bsz)
    (hgood : ∀ i, respond i = 200 ∨ respond i = 207) :
    main_model users org days now bsz false respond =
      Except.ok ⟨⟨users.length, (filter_inactive_users users org days now).length,
          (filter_inactive_users users org days now).take 5⟩,
        chunkBatches (filter_inactive_users users org days now) bsz.toNat,
        warnSpec respond 0
          (chunkBatches (filter_inactive_users users org days now) bsz.toNat).length,
        0, true⟩ := by
  have hok := chunked_pos (filter_inactive_users users org days now) bsz hb
  have hrun := run_batches_all_ok respond
    (chunkBatches (filter_inactive_users users org days now) bsz.toNat) 0
    (fun i _ => by rw [Nat.zero_add]; exact hgood i)
  simp only [main_model, hok, hrun]
  rw [if_neg hne]
  rfl

/-- C7: in dry-run mode no bulk-mutation call is issued — the run returns
exit code 0 having dispatched nothing — and the emitted preview report
(total fetched, inactive count, sample of at most 5 records) is exactly
the classification result; a non-dry run over the same inventory (batch
size ≥ 1, successful responses) dispatches batches whose concatenation
is exactly that same classification result. -/
theorem dry_run_frame (users : List User) (org : Option String)
    (days now bsz : Int) (respond : Nat → Nat)
    (hb : 1 ≤ bsz) (hr : ∀ i, respond i = 200 ∨ respond i = 207) :
    main_model users org days now bsz true respond =
      Except.ok ⟨⟨users.length, (filter_inactive_users users org days now).length,
        (filter_inactive_users users org days now).take 5⟩, [], [], 0, false⟩ ∧
    exceptIsOk (main_model users org days now bsz false respond) = true ∧
    (runDispatched (main_model users org days now bsz false respond)).flatten =
      filter_inactive_users users org days now := by
  by_cases hemp : (filter_inactive_users users org days now).isEmpty = true
  · have hmain : ∀ dry : Bool, main_model users org days now bsz dry respond =
        Except.ok ⟨⟨users.length,
          (filter_inactive_users users org days now).length,
          (filter_inactive_users users org days now).take 5⟩,
          [], [], 0, false⟩ := by
      intro dry
      simp only [main_model]
      rw [if_pos hemp]
    refine ⟨hmain true, ?_, ?_⟩
    · rw [hmain false]; rfl
    · rw [hmain false]
      simp only [runDispatched, List.flatten_nil]
      exact (List.isEmpty_eq_true.mp hemp).symm
  · have hrun := main_model_run users org days now bsz respond hemp hb hr
    have hdry : main_model users org days now bsz true respond =
        Except.ok ⟨⟨users.length,
          (filter_inactive_users users org days now).length,
          (filter_inactive_users users org days now).take 5⟩,
          [], [], 0, false⟩ := by
      simp only [main_model]
      rw [if_neg hemp]
      rfl
    refine ⟨hdry, ?_, ?_⟩
    · rw [hrun]; rfl
    · rw [hrun]
      exact chunkBatches_flatten (filter_inactive_users users org days now)
        bsz.toNat (by omega)

/-- User B of the spec scenario: recent login 2024-05-20, active at 45
days for `now` = 2024-06-01T00:00Z. -/
def uScenarioB : User :=
  { id := some "userB", email := some "b@example.com", status := some "Active",
    orgMembers :=
      some [{ orgId := some "org1", lastLoginAt := some "2024-05-20T00:00:00" }] }

/-- A server that always answers 200. -/
def resp200 : Nat → Nat := fun _ => 200

/-- Witness for `dry_run_frame`: over the two-user scenario inventory the
dry run reports 2 fetched / 1 inactive with user A as the sample and
dispatches nothing; the non-dry run dispatches exactly the one inactive
record. -/
theorem dry_run_frame_witness :
    main_model [uScenarioA, uScenarioB] none 45 1717200000 20 true resp200 =
      Except.ok ⟨⟨2, 1, [⟨some "userA", some "a@example.com",
        some ⟨1709251200, some 0⟩⟩]⟩, [], [], 0, false⟩ ∧
    exceptIsOk
      (main_model [uScenarioA, uScenarioB] none 45 1717200000 20 false resp200)
      = true ∧
    (runDispatched
      (main_model [uScenarioA, uScenarioB] none 45 1717200000 20 false
        resp200)).flatten =
      filter_inactive_users [uScenarioA, uScenarioB] none 45 1717200000 := by
  have h := dry_run_frame [uScenarioA, uScenarioB] none 45 1717200000 20 resp200
    (by norm_num) (fun i => Or.inl rfl)
  exact ⟨h.1.trans (by rfl), h.2.1, h.2.2⟩

/-- C10: nothing validates `batch_size ≥ 1` on the way from the CLI to
`chunked`.  With any negative batch size, `chunked` yields zero batches,
so a run over a non-empty inactive set posts no bulk call at all yet
still exits 0 and prints the completion message (every inactive user is
silently skipped); with batch size 0, Python `range` raises, so the run
dies with an uncaught exception instead of returning batches. -/
theorem batch_size_unchecked (users : List User) (org : Option String)
    (days now : Int) (respond : Nat → Nat) (k : Nat) (hk : 1 ≤ k)
    (hne : filter_inactive_users users org days now ≠ []) :
    chunked (filter_inactive_users users org days now) (-(k : Int)) =
      Except.ok [] ∧
    main_model users org days now (-(k : Int)) false respond =
      Except.ok ⟨⟨users.length, (filter_inactive_users users org days now).length,
        (filter_inactive_users users org days now).take 5⟩, [], [], 0, true⟩ ∧
    exceptIsOk (chunked (filter_inactive_users users org days now) (0 : Int))
      = false ∧
    exceptIsOk (main_model users org days now 0 false respond) = false := by
  have hempne : ¬((filter_inactive_users users org days now).isEmpty = true) :=
    fun h => hne (List.isEmpty_eq_true.mp h)
  have h1 : chunked (filter_inactive_users users org days now) (-(k : Int)) =
      Except.ok [] := by
    unfold chunked
    rw [if_neg (by omega), if_neg (by omega)]
  refine ⟨h1, ?_, rfl, ?_⟩
  · simp only [main_model, h1]
    rw [if_neg hempne]
    rfl
  · simp only [main_model]
    rw [if_neg hempne]
    rfl

/-- Witness for `batch_size_unchecked`: one inactive user, batch size −5
— no batch posted, exit 0, completion reported; batch size 0 — the run
dies with the `range` `ValueError`. -/
theorem batch_size_unchecked_witness :
    chunked (filter_inactive_users [uScenarioA] none 45 1717200000)
      (-(5 : Nat) : Int) = Except.ok [] ∧
    main_model [uScenarioA] none 45 1717200000 (-(5 : Nat) : Int) false resp200 =
      Except.ok ⟨⟨1, 1, [⟨some "userA", some "a@example.com",
        some ⟨1709251200, some 0⟩⟩]⟩, [], [], 0, true⟩ ∧
    exceptIsOk (chunked (filter_inactive_users [uScenarioA] none 45 1717200000)
      (0 : Int)) = false ∧
    exceptIsOk (main_model [uScenarioA] none 45 1717200000 0 false resp200)
      = false := by
  have h := batch_size_unchecked [uScenarioA] none 45 1717200000 resp200 5
    (by norm_num) (by decide)
  exact ⟨h.1, h.2.1.trans (by rfl), h.2.2.1, h.2.2.2⟩
